import Mathlib

/-!
Shallow embedding of `src/staticsystem.py` (class `StaticSystem`): a
gravitational N-body system whose state is held in flat arrays, with a
name→slot dictionary, an Euler `step`, `centre_of_mass`, momentum `fix`
and `get_body` lookup.

Modelling conventions:
* numpy float arrays are modelled over an abstract field `K` with decidable
  equality (instantiated at `ℝ` in the theorems); `np.sqrt` is an explicit
  function parameter `sqrt : K → K`, instantiated at `Real.sqrt`.
* An `N×D` array is a function `Fin N → Fin D → K`; a length-`N` 1-D array is
  `Fin N → K`; the Python dict is an insertion-ordered association list.
* Python functions that can raise are modelled in `Except Err`.
-/

/-- A `D`-dimensional vector of scalars, one row of an `N×D` numpy array. -/
abbrev Vec (K : Type) (D : ℕ) : Type := Fin D → K

/-- Modelled from the spec: the body record of the missing `pointmass` module
(`from pointmass import PointMass`); per the spec it is "an entity with a
name, a position vector, a velocity vector, a mass", an opaque data-transfer
record whose position and velocity have the same length `D`. -/
structure PointMass (K : Type) (D : ℕ) where
  name : String
  mass : K
  position : Vec K D
  velocity : Vec K D

/-- The Python exceptions that the code under `src/` can raise, plus
`degenerateSystem`, which names the spec's `DegenerateSystemError` so that
its absence from the code's behaviour is statable (no code path raises it). -/
inductive Err where
  /-- Python AttributeError with message "there are several objects called"
  plus the name, raised by `__init__` on a duplicate body name. -/
  | duplicateName (name : String)
  /-- Python AttributeError: an object without a `.name` attribute (e.g. a
  numpy array) was iterated as a body in `__init__`. -/
  | attributeNoName
  /-- Python IndexError: out-of-range access such as `args[0]` on an empty
  `args` tuple or `args[3]` on a 3-tuple. -/
  | indexError
  /-- Python TypeError (a dict object is not callable), raised by
  `self.bodyindex(name)` in `get_body`. -/
  | typeErrorNotCallable
  /-- Python ValueError (the truth value of a multi-element array is
  ambiguous), raised by `if not_yet_initialized:` on a multi-element array. -/
  | valueErrorAmbiguousTruth
  /-- Raw-state construction with arrays of inconsistent shapes or kinds;
  the source stores such arguments unchecked and the inconsistency surfaces
  later, the typed model rejects them at construction (no claim reaches
  this path). -/
  | shapeMismatch
  /-- The spec's `DegenerateSystemError` (zero total mass); no code path in
  `src/staticsystem.py` raises it. -/
  | degenerateSystem
deriving DecidableEq, Repr

/-- The state of `StaticSystem`: the `bodyindex` dict and the three arrays
`all_positions` (`N×D`), `all_velocities` (`N×D`), `all_masses` (length `N`). -/
structure StaticSystem (K : Type) (N D : ℕ) where
  bodyindex : List (String × ℕ)
  all_positions : Fin N → Vec K D
  all_velocities : Fin N → Vec K D
  all_masses : Fin N → K

attribute [ext] StaticSystem

/-- Python `name in dict` membership test on the modelled dict. -/
def dictContains (d : List (String × ℕ)) (k : String) : Bool :=
  d.any (fun p => p.1 == k)

/-- A Python value that can be passed to `StaticSystem.__init__`: the bool
flag, a `PointMass`, an `N×D` array, a 1-D array, or the index dict. -/
inductive PyVal (K : Type) (D : ℕ) where
  | pybool (b : Bool)
  | pm (body : PointMass K D)
  | mat (rows : List (Vec K D))
  | vec1 (xs : List K)
  | pydict (d : List (String × ℕ))

namespace StaticSystem

variable {K : Type} [Field K] [DecidableEq K] {N D : ℕ}

/-- Python truthiness of a constructor argument, as evaluated by
`if not_yet_initialized:`.  A bool is itself; any object (a `PointMass`, a
dict) is truthy by its contents; numpy truth-testing of an array raises
`ValueError` when the array has more than one element, and otherwise tests
the single element against zero (an empty array is falsy). -/
def truthy : PyVal K D → Except Err Bool
  | .pybool b => .ok b
  | .pm _ => .ok true
  | .mat rows =>
      if 1 < rows.length * D then .error .valueErrorAmbiguousTruth
      else .ok (rows.any (fun r => decide (∃ i, r i ≠ 0)))
  | .vec1 xs =>
      if 1 < xs.length then .error .valueErrorAmbiguousTruth
      else .ok (xs.any (fun x => x ≠ 0))
  | .pydict d => .ok (!d.isEmpty)

/-- The first loop of `__init__` (`not_yet_initialized` branch): iterate the
args in order, read `body.name` (an `AttributeError` if the arg is not a
`PointMass`), raise an `AttributeError` if the name is already a key of
`bodyindex`, else insert `name ↦ i`. -/
def makeIndex : List (PyVal K D) → List (String × ℕ) → ℕ →
    Except Err (List (String × ℕ))
  | [], idx, _ => .ok idx
  | .pm b :: rest, idx, i =>
      if dictContains idx b.name then .error (.duplicateName b.name)
      else makeIndex rest (idx ++ [(b.name, i)]) (i + 1)
  | _ :: _, _, _ => .error .attributeNoName

/-- The `PointMass` arguments among a list of constructor args. -/
def bodiesOf (args : List (PyVal K D)) : List (PointMass K D) :=
  args.filterMap (fun a => match a with | .pm b => some b | _ => none)

/-- Source `StaticSystem.__init__(not_yet_initialized=True, *args)`.

`not_yet_initialized` truthy: build `bodyindex` with the duplicate-name
check, then read `shape` from `len(args)` and `len(args[0].position)`
(an `IndexError` on an empty `args`) and populate the three arrays row-wise
from the bodies.

`not_yet_initialized` falsy: the raw-state path stores `args[0]`, `args[1]`,
`args[2]`, `args[3]` as positions, velocities, masses and dict (an
`IndexError` if fewer than four args are given). -/
def init (flag : PyVal K D) (args : List (PyVal K D)) :
    Except Err ((M : ℕ) × StaticSystem K M D) := do
  let b ← truthy flag
  if b then
    let idx ← makeIndex args [] 0
    match bodiesOf args with
    | [] => .error .indexError
    | b0 :: rest =>
        .ok ⟨(b0 :: rest).length,
          { bodyindex := idx
            all_positions := fun i => ((b0 :: rest).get i).position
            all_velocities := fun i => ((b0 :: rest).get i).velocity
            all_masses := fun i => ((b0 :: rest).get i).mass }⟩
  else
    match args with
    | .mat pos :: .mat vel :: .vec1 ms :: .pydict d :: _ =>
        if h : vel.length = pos.length ∧ ms.length = pos.length then
          .ok ⟨pos.length,
            { bodyindex := d
              all_positions := fun i => pos.get i
              all_velocities := fun i => vel.get ⟨i.1, by rw [h.1]; exact i.2⟩
              all_masses := fun i => ms.get ⟨i.1, by rw [h.2]; exact i.2⟩ }⟩
        else .error .shapeMismatch
    | _ :: _ :: _ :: _ :: _ => .error .shapeMismatch
    | _ => .error .indexError

/-- Source `self.bodyindex(name)`: the source calls the dict — a Python dict is not
callable, so this raises `TypeError` for every argument. -/
def dictCall (d : List (String × ℕ)) (name : String) : Except Err ℕ :=
  .error .typeErrorNotCallable

/-- Source `get_body(name)`: look the slot up by calling `self.bodyindex(name)` and
copy that slot's mass, position and velocity into a fresh `PointMass`. -/
def get_body (s : StaticSystem K N D) (name : String) :
    Except Err (PointMass K D) := do
  let index ← dictCall s.bodyindex name
  if h : index < N then
    .ok { name := name
          mass := s.all_masses ⟨index, h⟩
          position := s.all_positions ⟨index, h⟩
          velocity := s.all_velocities ⟨index, h⟩ }
  else .error .indexError

/-- Source `horizontal_grid = np.full(gridshape, self.all_positions)`: broadcasts
the `N×D` positions over `N×N×D`, so entry `(a, b)` is `position[b]`. -/
def horizontal_grid (s : StaticSystem K N D) : Fin N → Fin N → Vec K D :=
  fun _ b => s.all_positions b

/-- Source `vertical_grid = horizontal_grid.transpose((1, 0, 2))`: entry `(a, b)`
is `position[a]`. -/
def vertical_grid (s : StaticSystem K N D) : Fin N → Fin N → Vec K D :=
  fun a b => horizontal_grid s b a

/-- Source `convec_map = vertical_grid - horizontal_grid`: entry `(a, b)` is the
connection vector `position[a] - position[b]`. -/
def convec_map (s : StaticSystem K N D) : Fin N → Fin N → Vec K D :=
  fun a b k => vertical_grid s a b k - horizontal_grid s a b k

/-- Source `dist_map = np.sqrt((convec_map ** 2).sum(axis=2))`: the `N×N` matrix of
Euclidean distances between the bodies. -/
def dist_map (sqrt : K → K) (s : StaticSystem K N D) : Fin N → Fin N → K :=
  fun a b => sqrt (∑ k, (convec_map s a b k) ^ 2)

/-- Source `dist_map_rs[dist_map_rs == 0] = 1`: the distance matrix with every zero
entry replaced by `1`, the division guard used in the inverse-cube term. -/
def dist_map_rs (sqrt : K → K) (s : StaticSystem K N D) :
    Fin N → Fin N → K :=
  fun a b => if dist_map sqrt s a b = 0 then 1 else dist_map sqrt s a b

/-- Source `mass_matrix = np.full((mlen, mlen), self.all_masses)`: entry `(a, b)`
is `mass[b]`. -/
def mass_matrix (s : StaticSystem K N D) : Fin N → Fin N → K :=
  fun _ b => s.all_masses b

/-- Source `mx = convec_map * mass_matrix / (dist_map_rs ** 3)`: the per-pair
force-per-unit-mass contribution, with the guarded distance. -/
def mx (sqrt : K → K) (s : StaticSystem K N D) :
    Fin N → Fin N → Vec K D :=
  fun a b k => convec_map s a b k * mass_matrix s a b / (dist_map_rs sqrt s a b) ^ 3

/-- The same inverse-cube term computed with the raw, unguarded distance
matrix, used to state what the zero-replacement guard does and does not
alter. -/
def mx_unguarded (sqrt : K → K) (s : StaticSystem K N D) :
    Fin N → Fin N → Vec K D :=
  fun a b k => convec_map s a b k * mass_matrix s a b / (dist_map sqrt s a b) ^ 3

/-- Source `accelleration = - grav_const * mx.sum(axis=1)` (source spelling
kept). -/
def accelleration (sqrt : K → K) (s : StaticSystem K N D) (G : K) :
    Fin N → Vec K D :=
  fun a k => -G * ∑ b, mx sqrt s a b k

/-- The `inplace=True` branch of `step`: overwrite the arrays with
`positions + velocities * dt` and `velocities + accelleration * dt`. -/
def step_inplace (s : StaticSystem K N D) (dt G : K) (sqrt : K → K) :
    StaticSystem K N D :=
  { s with
    all_positions := fun i k => s.all_positions i k + s.all_velocities i k * dt
    all_velocities := fun i k => s.all_velocities i k + accelleration sqrt s G i k * dt }

/-- The `inplace=False` branch of `step`: compute the advanced arrays and
pass them to `StaticSystem(all_positions, all_velocities, self.all_masses,
self.bodyindex)` — with no leading `not_yet_initialized` flag, so the new
positions array is bound to the flag parameter. -/
def step_outofplace (s : StaticSystem K N D) (dt G : K) (sqrt : K → K) :
    Except Err ((M : ℕ) × StaticSystem K M D) :=
  let all_positions : List (Vec K D) :=
    List.ofFn (fun i k => s.all_positions i k + s.all_velocities i k * dt)
  let all_velocities : List (Vec K D) :=
    List.ofFn (fun i k => s.all_velocities i k + accelleration sqrt s G i k * dt)
  init (.mat all_positions)
    [.mat all_velocities, .vec1 (List.ofFn s.all_masses), .pydict s.bodyindex]

/-- Source `centre_of_mass()`: `(positions * masses[:, None]).sum(axis=0)` divided
by `masses.sum()`, with no zero-mass check and no raise statement. -/
def centre_of_mass (s : StaticSystem K N D) : Except Err (Vec K D) :=
  .ok (fun k => (∑ i, s.all_positions i k * s.all_masses i) / ∑ i, s.all_masses i)

/-- Source `fix()`: subtract the centre-of-mass velocity
`(velocities * masses[:, None]).sum(axis=0) / masses.sum()` from every row of
`all_velocities`, with no zero-mass check and no raise statement. -/
def fix (s : StaticSystem K N D) : Except Err (StaticSystem K N D) :=
  .ok { s with
        all_velocities := fun i k =>
          s.all_velocities i k -
            (∑ j, s.all_velocities j k * s.all_masses j) / ∑ j, s.all_masses j }

/-- The association list `[(n₀, i), (n₁, i+1), …]` that the `__init__` loop
produces from the body names when no duplicate is found. -/
def enumNames : List String → ℕ → List (String × ℕ)
  | [], _ => []
  | n :: rest, i => (n, i) :: enumNames rest (i + 1)

/-- The system that successful from-bodies construction yields: slots in
input order, arrays populated row-wise. -/
def fromBodiesSys (bodies : List (PointMass K D)) :
    StaticSystem K bodies.length D :=
  { bodyindex := enumNames (bodies.map PointMass.name) 0
    all_positions := fun i => (bodies.get i).position
    all_velocities := fun i => (bodies.get i).velocity
    all_masses := fun i => (bodies.get i).mass }

end StaticSystem

/-! ### Concrete systems used by counterexamples and witnesses -/

/-- First body of the spec's lookup round-trip example. -/
def pmA : PointMass ℝ 3 := ⟨"A", 1, ![0, 0, 0], ![0, 0, 0]⟩

/-- Second body of the spec's lookup round-trip example. -/
def pmB : PointMass ℝ 3 := ⟨"B", 1, ![1, 0, 0], ![0, 0, 0]⟩

/-- A two-body one-dimensional system: unit masses at positions 0 and 1. -/
def unitPair : StaticSystem ℝ 2 1 :=
  { bodyindex := [("A", 0), ("B", 1)]
    all_positions := ![![0], ![1]]
    all_velocities := ![![0], ![0]]
    all_masses := ![1, 1] }

/-- Two bodies, both of mass zero: the total mass is zero. -/
def zeroMassPair : StaticSystem ℝ 2 1 :=
  { bodyindex := [("a", 0), ("b", 1)]
    all_positions := ![![3], ![7]]
    all_velocities := ![![1], ![2]]
    all_masses := ![0, 0] }

/-- Two distinct bodies at genuinely coincident positions. -/
def coincidentPair : StaticSystem ℝ 2 1 :=
  { bodyindex := [("a", 0), ("b", 1)]
    all_positions := ![![5], ![5]]
    all_velocities := ![![0], ![0]]
    all_masses := ![1, 1] }

/-- A two-body system with unit masses and unequal velocities. -/
def movingPair : StaticSystem ℝ 2 1 :=
  { bodyindex := [("a", 0), ("b", 1)]
    all_positions := ![![0], ![1]]
    all_velocities := ![![1], ![3]]
    all_masses := ![1, 1] }

/-- A system of two named bodies with the given masses, positions and
velocities, slots in input order. -/
def twoBody {D : ℕ} (m1 m2 : ℝ) (p1 p2 v1 v2 : Vec ℝ D) :
    StaticSystem ℝ 2 D :=
  { bodyindex := [("body1", 0), ("body2", 1)]
    all_positions := ![p1, p2]
    all_velocities := ![v1, v2]
    all_masses := ![m1, m2] }

/-! ### Claim theorems -/

/-- Claim C1: false of the code — `get_body` never returns a snapshot, for
any system and any name, present or not: the source computes the slot with
`self.bodyindex(name)`, and calling a dict raises
TypeError (a dict object is not callable). -/
theorem get_body_always_raises {N D : ℕ} (s : StaticSystem ℝ N D)
    (name : String) :
    s.get_body name = .error .typeErrorNotCallable := rfl

/-- Claim C10: constructing from the empty body list raises an exception:
the name loop builds an empty index, but `shape` then reads
`args[0].position`, and `args[0]` on the empty tuple is an `IndexError`;
no `N = 0` system is ever produced. -/
theorem init_empty_raises (D : ℕ) :
    StaticSystem.init (K := ℝ) (.pybool true) ([] : List (PyVal ℝ D))
      = .error .indexError := rfl

/-- Claim C9 counterexample: the empty body list has (vacuously) distinct
names, yet from-bodies construction fails with an `IndexError`, refuting
"construction succeeds whenever all names are distinct". -/
theorem init_nodup_yet_fails :
    (([] : List (PointMass ℝ 3)).map PointMass.name).Nodup ∧
      StaticSystem.init (.pybool true)
        (([] : List (PointMass ℝ 3)).map PyVal.pm) = .error .indexError :=
  ⟨List.nodup_nil, rfl⟩

/-- Claim C6 counterexample: on a system whose total mass is zero, neither
`centre_of_mass` nor `fix` fails — both return normally, because the source
has no zero-mass check and raises no `DegenerateSystemError` anywhere (the
numpy division by zero is silent). -/
theorem zero_mass_no_failure :
    (∑ i, zeroMassPair.all_masses i) = 0 ∧
      (StaticSystem.centre_of_mass zeroMassPair).isOk = true ∧
      (StaticSystem.fix zeroMassPair).isOk = true :=
  ⟨by simp [zeroMassPair, Fin.sum_univ_two], rfl, rfl⟩

/-- Claim C6 (amended): `centre_of_mass` and `fix` never fail, zero total
mass included — `centre_of_mass` performs the division unconditionally and
mutates nothing, and `fix` returns normally, rewriting only the
velocities. -/
theorem centre_of_mass_fix_never_fail {N D : ℕ} (s : StaticSystem ℝ N D) :
    StaticSystem.centre_of_mass s
        = .ok (fun k => (∑ i, s.all_positions i k * s.all_masses i) /
            ∑ i, s.all_masses i) ∧
      StaticSystem.fix s
        = .ok { s with
                all_velocities := fun i k => s.all_velocities i k -
                  (∑ j, s.all_velocities j k * s.all_masses j) /
                    ∑ j, s.all_masses j } :=
  ⟨rfl, rfl⟩

/-- Claim C2 (amended): the acceleration of slot `a` is
`-G * Σ_b mass[b] * (position[a] − position[b]) / dist̂(a,b)³`: the
connection vector the kernel uses is `vertical_grid − horizontal_grid`,
i.e. `position[a] − position[b]`, not `position[b] − position[a]`. -/
theorem accelleration_closed_form {N D : ℕ} (s : StaticSystem ℝ N D)
    (sqrt : ℝ → ℝ) (G : ℝ) (a : Fin N) (k : Fin D) :
    StaticSystem.accelleration sqrt s G a k
      = -G * ∑ b, s.all_masses b *
          (s.all_positions a k - s.all_positions b k) /
            (StaticSystem.dist_map_rs sqrt s a b) ^ 3 := by
  unfold StaticSystem.accelleration StaticSystem.mx StaticSystem.convec_map
    StaticSystem.vertical_grid StaticSystem.horizontal_grid
    StaticSystem.mass_matrix
  congr 1
  exact Finset.sum_congr rfl fun b _ => by ring

/-- Claim C2 counterexample: on `unitPair` (unit masses at positions 0 and 1
in one dimension) with `G = 1`, the acceleration of slot 0 is `+1`, but the
claim's formula `-G * Σ_j mass[j] * (position[j] − position[i]) / dist³`
gives `-1`: the claim's displacement has the opposite sign to the code's. -/
theorem accelleration_spec_sign_false :
    ¬ (StaticSystem.accelleration Real.sqrt unitPair 1 0
        = fun k => -1 * ∑ b, unitPair.all_masses b *
            (unitPair.all_positions b k - unitPair.all_positions 0 k) /
              (StaticSystem.dist_map_rs Real.sqrt unitPair 0 b) ^ 3) := by
  intro h
  have hk := congrFun h 0
  simp [StaticSystem.accelleration, StaticSystem.mx, StaticSystem.convec_map,
    StaticSystem.vertical_grid, StaticSystem.horizontal_grid,
    StaticSystem.mass_matrix, StaticSystem.dist_map_rs, StaticSystem.dist_map,
    unitPair, Fin.sum_univ_two, Fin.sum_univ_one,
    Real.sqrt_zero, Real.sqrt_one] at hk
  norm_num at hk


/-- Claim C7: the zero-distance guard alters only contributions whose
numerator is already the zero vector: every self-pair contribution is zero,
and for distinct slots `i ≠ j` — coincident positions included — the guarded
contribution equals the unguarded one (a zero distance forces the connection
vector to be zero, so both quotients vanish). -/
theorem guard_alters_only_self_pairs {N D : ℕ} (s : StaticSystem ℝ N D)
    (i j : Fin N) (k : Fin D) :
    StaticSystem.mx Real.sqrt s i i k = 0 ∧
      (i ≠ j → StaticSystem.mx Real.sqrt s i j k
        = StaticSystem.mx_unguarded Real.sqrt s i j k) := by
  constructor
  · simp [StaticSystem.mx, StaticSystem.convec_map, StaticSystem.vertical_grid,
      StaticSystem.horizontal_grid]
  · intro hij
    by_cases h : StaticSystem.dist_map Real.sqrt s i j = 0
    · have hnn : ∀ d ∈ Finset.univ,
          (0:ℝ) ≤ (StaticSystem.convec_map s i j d) ^ 2 := fun d _ => sq_nonneg _
      have hs : (∑ d, (StaticSystem.convec_map s i j d) ^ 2) = 0 := by
        have hle := Real.sqrt_eq_zero'.mp h
        have hge := Finset.sum_nonneg hnn
        linarith
      have hk := (Finset.sum_eq_zero_iff_of_nonneg hnn).mp hs k (Finset.mem_univ k)
      have hz : StaticSystem.convec_map s i j k = 0 :=
        (pow_eq_zero_iff (two_ne_zero)).mp hk
      simp [StaticSystem.mx, StaticSystem.mx_unguarded, StaticSystem.dist_map_rs,
        h, hz]
    · simp [StaticSystem.mx, StaticSystem.mx_unguarded, StaticSystem.dist_map_rs, h]

/-- Witness for C7 at two coincident distinct bodies. -/
theorem guard_alters_only_self_pairs_witness :
    (0 : Fin 2) ≠ 1 ∧
      StaticSystem.mx Real.sqrt coincidentPair 0 0 0 = 0 ∧
      StaticSystem.mx Real.sqrt coincidentPair 0 1 0
        = StaticSystem.mx_unguarded Real.sqrt coincidentPair 0 1 0 :=
  ⟨by decide, (guard_alters_only_self_pairs coincidentPair 0 1 0).1,
    (guard_alters_only_self_pairs coincidentPair 0 1 0).2 (by decide)⟩

/-- An antisymmetric double sum over a square index range vanishes. -/
lemma sum_antisymm_eq_zero {N : ℕ} (f : Fin N → Fin N → ℝ)
    (h : ∀ i j, f i j = - f j i) : (∑ i, ∑ j, f i j) = 0 := by
  have h1 : (∑ i, ∑ j, f i j) = ∑ i, ∑ j, -(f j i) :=
    Finset.sum_congr rfl fun i _ => Finset.sum_congr rfl fun j _ => h i j
  have h2 : (∑ i, ∑ j, -(f j i)) = - ∑ i, ∑ j, f j i := by
    simp
  have h3 : (∑ i, ∑ j, f j i) = ∑ i, ∑ j, f i j := Finset.sum_comm
  linarith

/-- Claim C4: one in-place step conserves total momentum exactly
(componentwise), for every system, timestep, gravitational constant and
square-root function: the connection vectors are antisymmetric and the
guarded distance matrix is symmetric, so the mass-weighted accelerations
cancel pairwise. -/
theorem step_conserves_momentum {N D : ℕ} (s : StaticSystem ℝ N D)
    (dt G : ℝ) (sqrt : ℝ → ℝ) (k : Fin D) :
    ∑ i, (StaticSystem.step_inplace s dt G sqrt).all_masses i *
        (StaticSystem.step_inplace s dt G sqrt).all_velocities i k
      = ∑ i, s.all_masses i * s.all_velocities i k := by
  have hanti : ∀ i j, s.all_masses i * StaticSystem.mx sqrt s i j k
      = -(s.all_masses j * StaticSystem.mx sqrt s j i k) := by
    intro i j
    have hdist : StaticSystem.dist_map sqrt s i j
        = StaticSystem.dist_map sqrt s j i := by
      simp only [StaticSystem.dist_map]
      congr 1
      refine Finset.sum_congr rfl fun d _ => ?hy
      simp only [StaticSystem.convec_map, StaticSystem.vertical_grid,
        StaticSystem.horizontal_grid]
      ring
    have hguard : StaticSystem.dist_map_rs sqrt s i j
        = StaticSystem.dist_map_rs sqrt s j i := by
      simp only [StaticSystem.dist_map_rs, hdist]
    simp only [StaticSystem.mx, StaticSystem.convec_map,
      StaticSystem.vertical_grid, StaticSystem.horizontal_grid,
      StaticSystem.mass_matrix, hguard]
    ring
  have key : ∑ i, s.all_masses i * StaticSystem.accelleration sqrt s G i k
      = 0 := by
    have hrw : ∑ i, s.all_masses i * StaticSystem.accelleration sqrt s G i k
        = (∑ i, ∑ j, s.all_masses i * StaticSystem.mx sqrt s i j k) * -G := by
      rw [Finset.sum_mul]
      refine Finset.sum_congr rfl fun i _ => ?hx
      rw [Finset.sum_mul]
      simp only [StaticSystem.accelleration, Finset.mul_sum]
      refine Finset.sum_congr rfl fun j _ => by ring
    rw [hrw, sum_antisymm_eq_zero _ hanti, zero_mul]
  show ∑ i, s.all_masses i *
      (s.all_velocities i k + StaticSystem.accelleration sqrt s G i k * dt)
    = ∑ i, s.all_masses i * s.all_velocities i k
  calc ∑ i, s.all_masses i *
        (s.all_velocities i k + StaticSystem.accelleration sqrt s G i k * dt)
      = ∑ i, (s.all_masses i * s.all_velocities i k +
          s.all_masses i * StaticSystem.accelleration sqrt s G i k * dt) :=
        Finset.sum_congr rfl fun i _ => by ring
    _ = (∑ i, s.all_masses i * s.all_velocities i k) +
          ∑ i, s.all_masses i * StaticSystem.accelleration sqrt s G i k * dt :=
        Finset.sum_add_distrib
    _ = ∑ i, s.all_masses i * s.all_velocities i k := by
        rw [← Finset.sum_mul, key, zero_mul, add_zero]

/-- Claim C8: with nonzero total mass, applying `fix` twice gives exactly the
result of applying it once — after one fix the mass-weighted velocity sum is
zero, so the second subtraction removes nothing. -/
theorem fix_twice_eq_fix_once {N D : ℕ} (s : StaticSystem ℝ N D)
    (h : (∑ i, s.all_masses i) ≠ 0) :
    (StaticSystem.fix s).bind StaticSystem.fix = StaticSystem.fix s := by
  have hzero : ∀ k : Fin D,
      (∑ j, (s.all_velocities j k -
          (∑ l, s.all_velocities l k * s.all_masses l) / ∑ l, s.all_masses l) *
        s.all_masses j) = 0 := by
    intro k
    have expand : (∑ j, (s.all_velocities j k -
          (∑ l, s.all_velocities l k * s.all_masses l) / ∑ l, s.all_masses l) *
        s.all_masses j)
        = (∑ j, s.all_velocities j k * s.all_masses j) -
          ((∑ l, s.all_velocities l k * s.all_masses l) / ∑ l, s.all_masses l) *
            ∑ j, s.all_masses j := by
      rw [Finset.mul_sum]
      rw [← Finset.sum_sub_distrib]
      refine Finset.sum_congr rfl fun j _ => by ring
    rw [expand, div_mul_cancel₀ _ h, sub_self]
  unfold StaticSystem.fix
  simp only [Except.bind]
  congr 1
  apply StaticSystem.ext
  · rfl
  · rfl
  · funext i k
    dsimp only
    rw [hzero k, zero_div, sub_zero]
  · rfl


/-- Witness for C8 at a concrete two-body system of total mass 2. -/
theorem fix_twice_eq_fix_once_witness :
    (∑ i, movingPair.all_masses i) ≠ 0 ∧
      (StaticSystem.fix movingPair).bind StaticSystem.fix
        = StaticSystem.fix movingPair :=
  ⟨by norm_num [movingPair, Fin.sum_univ_two],
    fix_twice_eq_fix_once movingPair
      (by norm_num [movingPair, Fin.sum_univ_two])⟩


/-- Claim C3: in a two-body system at distinct positions, the acceleration of
body 1 is `G*m2/d³ · (p2 − p1)` — a nonnegative multiple of the direction
from `p1` toward `p2` — its Euclidean magnitude is `G*m2/d²`, and the
acceleration of body 2 is the negation of body 1's scaled by `m1/m2`. -/
theorem two_body_acceleration {D : ℕ} (m1 m2 G : ℝ) (p1 p2 v1 v2 : Vec ℝ D)
    (hp : p1 ≠ p2) (hG : 0 ≤ G) (hm2 : 0 < m2) :
    (∀ k, StaticSystem.accelleration Real.sqrt (twoBody m1 m2 p1 p2 v1 v2) G 0 k
        = G * m2 / (Real.sqrt (∑ j, (p2 j - p1 j) ^ 2)) ^ 3 * (p2 k - p1 k)) ∧
      0 ≤ G * m2 / (Real.sqrt (∑ j, (p2 j - p1 j) ^ 2)) ^ 3 ∧
      Real.sqrt (∑ k, (StaticSystem.accelleration Real.sqrt
            (twoBody m1 m2 p1 p2 v1 v2) G 0 k) ^ 2)
        = G * m2 / (Real.sqrt (∑ j, (p2 j - p1 j) ^ 2)) ^ 2 ∧
      (∀ k, StaticSystem.accelleration Real.sqrt (twoBody m1 m2 p1 p2 v1 v2) G 1 k
        = -(m1 / m2) * StaticSystem.accelleration Real.sqrt
            (twoBody m1 m2 p1 p2 v1 v2) G 0 k) := by
  set t := twoBody m1 m2 p1 p2 v1 v2 with ht
  set d := Real.sqrt (∑ j, (p2 j - p1 j) ^ 2) with hd_def
  have hS0 : 0 < ∑ j, (p2 j - p1 j) ^ 2 := by
    obtain ⟨k0, hk0⟩ : ∃ j, p1 j ≠ p2 j := by
      by_contra hc
      push_neg at hc
      exact hp (funext hc)
    refine Finset.sum_pos' (fun j _ => sq_nonneg _) ⟨k0, Finset.mem_univ k0, ?hpos⟩
    have hne0 : p2 k0 - p1 k0 ≠ 0 := sub_ne_zero.mpr (Ne.symm hk0)
    exact lt_of_le_of_ne (sq_nonneg _) (Ne.symm (pow_ne_zero 2 hne0))
  have hdnn : 0 ≤ d := by rw [hd_def]; exact Real.sqrt_nonneg _
  have hd : 0 < d := by rw [hd_def]; exact Real.sqrt_pos.mpr hS0
  have hd2 : d ^ 2 = ∑ j, (p2 j - p1 j) ^ 2 := by
    rw [hd_def]; exact Real.sq_sqrt hS0.le
  have hdist01 : StaticSystem.dist_map Real.sqrt t 0 1 = d := by
    rw [hd_def]
    simp only [StaticSystem.dist_map, StaticSystem.convec_map,
      StaticSystem.vertical_grid, StaticSystem.horizontal_grid, ht, twoBody,
      Matrix.cons_val_zero, Matrix.cons_val_one, Matrix.head_cons]
    congr 1
    exact Finset.sum_congr rfl fun j _ => by ring
  have hdist10 : StaticSystem.dist_map Real.sqrt t 1 0 = d := by
    rw [hd_def]
    simp only [StaticSystem.dist_map, StaticSystem.convec_map,
      StaticSystem.vertical_grid, StaticSystem.horizontal_grid, ht, twoBody,
      Matrix.cons_val_zero, Matrix.cons_val_one, Matrix.head_cons]
  have hg01 : StaticSystem.dist_map_rs Real.sqrt t 0 1 = d := by
    simp only [StaticSystem.dist_map_rs, hdist01]
    rw [if_neg hd.ne']
  have hg10 : StaticSystem.dist_map_rs Real.sqrt t 1 0 = d := by
    simp only [StaticSystem.dist_map_rs, hdist10]
    rw [if_neg hd.ne']
  have hmx00 : ∀ k, StaticSystem.mx Real.sqrt t 0 0 k = 0 := fun k => by
    simp [StaticSystem.mx, StaticSystem.convec_map, StaticSystem.vertical_grid,
      StaticSystem.horizontal_grid]
  have hmx11 : ∀ k, StaticSystem.mx Real.sqrt t 1 1 k = 0 := fun k => by
    simp [StaticSystem.mx, StaticSystem.convec_map, StaticSystem.vertical_grid,
      StaticSystem.horizontal_grid]
  have hmx01 : ∀ k, StaticSystem.mx Real.sqrt t 0 1 k
      = (p1 k - p2 k) * m2 / d ^ 3 := fun k => by
    simp only [StaticSystem.mx]
    rw [hg01]
    simp only [StaticSystem.convec_map, StaticSystem.vertical_grid,
      StaticSystem.horizontal_grid, StaticSystem.mass_matrix, ht, twoBody,
      Matrix.cons_val_zero, Matrix.cons_val_one, Matrix.head_cons]
  have hmx10 : ∀ k, StaticSystem.mx Real.sqrt t 1 0 k
      = (p2 k - p1 k) * m1 / d ^ 3 := fun k => by
    simp only [StaticSystem.mx]
    rw [hg10]
    simp only [StaticSystem.convec_map, StaticSystem.vertical_grid,
      StaticSystem.horizontal_grid, StaticSystem.mass_matrix, ht, twoBody,
      Matrix.cons_val_zero, Matrix.cons_val_one, Matrix.head_cons]
  have haccel0 : ∀ k, StaticSystem.accelleration Real.sqrt t G 0 k
      = G * m2 / d ^ 3 * (p2 k - p1 k) := fun k => by
    simp only [StaticSystem.accelleration, Fin.sum_univ_two, hmx00, hmx01]
    ring
  have haccel1 : ∀ k, StaticSystem.accelleration Real.sqrt t G 1 k
      = -(G * m1 / d ^ 3) * (p2 k - p1 k) := fun k => by
    simp only [StaticSystem.accelleration, Fin.sum_univ_two, hmx10, hmx11]
    ring
  have hcnn : 0 ≤ G * m2 / d ^ 3 :=
    div_nonneg (mul_nonneg hG hm2.le) (pow_nonneg hdnn 3)
  refine ⟨haccel0, hcnn, ?hmag, ?hratio⟩
  · have hsum : (∑ k, (StaticSystem.accelleration Real.sqrt t G 0 k) ^ 2)
        = (G * m2 / d ^ 3) ^ 2 * ∑ j, (p2 j - p1 j) ^ 2 := by
      rw [Finset.mul_sum]
      refine Finset.sum_congr rfl fun k _ => ?hk
      rw [haccel0 k]; ring
    rw [hsum, ← hd2, show (G * m2 / d ^ 3) ^ 2 * d ^ 2
        = (G * m2 / d ^ 3 * d) ^ 2 by ring,
      Real.sqrt_sq (mul_nonneg hcnn hdnn)]
    field_simp
    ring
  · intro k
    rw [haccel1 k, haccel0 k]
    field_simp
    ring

/-- Witness for C3: two unit masses at positions 0 and 1 on a line, `G = 1`. -/
theorem two_body_acceleration_witness :
    ((![(0:ℝ)] : Vec ℝ 1) ≠ ![(1:ℝ)]) ∧
      ((∀ k, StaticSystem.accelleration Real.sqrt
            (twoBody 1 1 ![(0:ℝ)] ![(1:ℝ)] ![(0:ℝ)] ![(0:ℝ)]) 1 0 k
          = 1 * 1 / (Real.sqrt (∑ j, ((![(1:ℝ)] : Vec ℝ 1) j -
              (![(0:ℝ)] : Vec ℝ 1) j) ^ 2)) ^ 3 *
            ((![(1:ℝ)] : Vec ℝ 1) k - (![(0:ℝ)] : Vec ℝ 1) k)) ∧
        0 ≤ 1 * 1 / (Real.sqrt (∑ j, ((![(1:ℝ)] : Vec ℝ 1) j -
            (![(0:ℝ)] : Vec ℝ 1) j) ^ 2)) ^ 3 ∧
        Real.sqrt (∑ k, (StaticSystem.accelleration Real.sqrt
              (twoBody 1 1 ![(0:ℝ)] ![(1:ℝ)] ![(0:ℝ)] ![(0:ℝ)]) 1 0 k) ^ 2)
          = 1 * 1 / (Real.sqrt (∑ j, ((![(1:ℝ)] : Vec ℝ 1) j -
              (![(0:ℝ)] : Vec ℝ 1) j) ^ 2)) ^ 2 ∧
        (∀ k, StaticSystem.accelleration Real.sqrt
            (twoBody 1 1 ![(0:ℝ)] ![(1:ℝ)] ![(0:ℝ)] ![(0:ℝ)]) 1 1 k
          = -(1 / 1) * StaticSystem.accelleration Real.sqrt
              (twoBody 1 1 ![(0:ℝ)] ![(1:ℝ)] ![(0:ℝ)] ![(0:ℝ)]) 1 0 k)) := by
  have hne : (![(0:ℝ)] : Vec ℝ 1) ≠ ![(1:ℝ)] := by
    intro h
    have h0 := congrFun h 0
    simp at h0
  exact ⟨hne, two_body_acceleration 1 1 1 ![0] ![1] ![0] ![0] hne
    (by norm_num) (by norm_num)⟩

/-- Claim C5: false of the code — for any system with more than one scalar in
its positions array (`1 < N*D`), `step(dt, inplace=False)` raises instead of
returning a new system: the internal call
`StaticSystem(all_positions, all_velocities, self.all_masses, self.bodyindex)`
binds the advanced positions array to the `not_yet_initialized` flag, and
numpy truth-testing of a multi-element array raises `ValueError`. -/
theorem step_outofplace_raises {N D : ℕ} (s : StaticSystem ℝ N D)
    (dt G : ℝ) (sqrt : ℝ → ℝ) (h : 1 < N * D) :
    StaticSystem.step_outofplace s dt G sqrt
      = .error .valueErrorAmbiguousTruth := by
  unfold StaticSystem.step_outofplace StaticSystem.init
  simp only [StaticSystem.truthy, List.length_ofFn, if_pos h]
  rfl

/-- Witness for C5 at a two-body three-dimensional system (`N*D = 6 > 1`). -/
theorem step_outofplace_raises_witness :
    1 < 2 * 3 ∧
      StaticSystem.step_outofplace (StaticSystem.fromBodiesSys [pmA, pmB])
          1 1 Real.sqrt
        = .error .valueErrorAmbiguousTruth :=
  ⟨by norm_num,
    step_outofplace_raises (StaticSystem.fromBodiesSys [pmA, pmB]) 1 1
      Real.sqrt (by norm_num)⟩

/-- Appending a single binding extends dict membership. -/
lemma dictContains_append (idx : List (String × ℕ)) (x : String) (i : ℕ)
    (n : String) :
    dictContains (idx ++ [(x, i)]) n = (dictContains idx n || (x == n)) := by
  simp [dictContains]

/-- Extracting the bodies back out of `PointMass` constructor args. -/
lemma bodiesOf_map_pm {D : ℕ} (bodies : List (PointMass ℝ D)) :
    StaticSystem.bodiesOf (bodies.map PyVal.pm) = bodies := by
  induction bodies with
  | nil => rfl
  | cons b rest ih =>
      unfold StaticSystem.bodiesOf at ih ⊢
      simp only [List.map_cons, List.filterMap_cons]
      simp [ih]

/-- On bodies whose names are distinct and fresh for the accumulator, the
`__init__` name loop succeeds and appends the enumerated names. -/
lemma makeIndex_nodup_ok {D : ℕ} (bodies : List (PointMass ℝ D)) :
    ∀ (idx : List (String × ℕ)) (i : ℕ),
      (∀ n ∈ bodies.map PointMass.name, dictContains idx n = false) →
      (bodies.map PointMass.name).Nodup →
      StaticSystem.makeIndex (bodies.map PyVal.pm) idx i
        = .ok (idx ++ StaticSystem.enumNames (bodies.map PointMass.name) i) := by
  induction bodies with
  | nil =>
      intro idx i _ _
      simp [StaticSystem.makeIndex, StaticSystem.enumNames]
  | cons b rest ih =>
      intro idx i hfresh hnd
      simp only [List.map_cons, List.nodup_cons] at hnd
      have hb : dictContains idx b.name = false := hfresh b.name (by simp)
      have hfresh2 : ∀ n ∈ rest.map PointMass.name,
          dictContains (idx ++ [(b.name, i)]) n = false := by
        intro n hn
        rw [dictContains_append]
        have h1 : dictContains idx n = false := hfresh n (by simp [hn])
        have h2 : (b.name == n) = false := by
          rw [beq_eq_false_iff_ne]
          intro he
          exact hnd.1 (by rw [he]; exact hn)
        rw [h1, h2]
        rfl
      simp only [List.map_cons, StaticSystem.makeIndex, hb]
      rw [ih (idx ++ [(b.name, i)]) (i + 1) hfresh2 hnd.2]
      simp [StaticSystem.enumNames, List.append_assoc]

/-- If the body names contain a duplicate (or collide with the accumulator),
the `__init__` name loop raises the duplicate-name `AttributeError`. -/
lemma makeIndex_dup {D : ℕ} (bodies : List (PointMass ℝ D)) :
    ∀ (idx : List (String × ℕ)) (i : ℕ),
      (¬ (bodies.map PointMass.name).Nodup ∨
        ∃ n ∈ bodies.map PointMass.name, dictContains idx n = true) →
      ∃ m, StaticSystem.makeIndex (bodies.map PyVal.pm) idx i
        = .error (.duplicateName m) := by
  induction bodies with
  | nil =>
      intro idx i h
      rcases h with h | ⟨n, hn, _⟩
      · simp at h
      · simp at hn
  | cons b rest ih =>
      intro idx i h
      by_cases hc : dictContains idx b.name
      · exact ⟨b.name, by simp [StaticSystem.makeIndex, hc]⟩
      · have hstep : StaticSystem.makeIndex ((b :: rest).map PyVal.pm) idx i
            = StaticSystem.makeIndex (rest.map PyVal.pm)
                (idx ++ [(b.name, i)]) (i + 1) := by
          simp [StaticSystem.makeIndex, hc]
        rw [hstep]
        apply ih
        rcases h with hnd | ⟨n, hn, hcont⟩
        · simp only [List.map_cons, List.nodup_cons] at hnd
          by_cases hr : (rest.map PointMass.name).Nodup
          · have hin : b.name ∈ rest.map PointMass.name := by
              by_contra hno
              exact hnd ⟨hno, hr⟩
            right
            exact ⟨b.name, hin, by rw [dictContains_append]; simp⟩
          · left; exact hr
        · simp only [List.map_cons, List.mem_cons] at hn
          rcases hn with he | hn2
          · exact absurd (he ▸ hcont) hc
          · right
            refine ⟨n, hn2, ?hcc⟩
            rw [dictContains_append, hcont]
            simp

/-- Claim C9 (amended): from-bodies construction fails with the
duplicate-name `AttributeError` whenever two bodies share a name, and from a
nonempty body list with pairwise-distinct names it succeeds, assigning slot
`i` to the `i`-th input body and copying the arrays row-wise (the empty list
instead fails with `IndexError` — see the counterexample). -/
theorem init_from_bodies {D : ℕ} (bodies : List (PointMass ℝ D)) :
    (¬ (bodies.map PointMass.name).Nodup →
      ∃ n, StaticSystem.init (.pybool true) (bodies.map PyVal.pm)
        = .error (.duplicateName n)) ∧
    (bodies ≠ [] → (bodies.map PointMass.name).Nodup →
      StaticSystem.init (.pybool true) (bodies.map PyVal.pm)
        = .ok ⟨bodies.length, StaticSystem.fromBodiesSys bodies⟩) := by
  constructor
  · intro hnd
    obtain ⟨m, hm⟩ := makeIndex_dup bodies [] 0 (Or.inl hnd)
    refine ⟨m, ?he⟩
    unfold StaticSystem.init
    simp only [StaticSystem.truthy, hm]
    rfl
  · intro hne hnd
    obtain ⟨b0, rest, rfl⟩ : ∃ b0 rest, bodies = b0 :: rest := by
      cases bodies with
      | nil => exact absurd rfl hne
      | cons x xs => exact ⟨x, xs, rfl⟩
    have hmk := makeIndex_nodup_ok (b0 :: rest) [] 0
      (fun n _ => rfl) hnd
    simp only [List.nil_append] at hmk
    unfold StaticSystem.init
    simp only [StaticSystem.truthy, hmk, bodiesOf_map_pm]
    rfl

/-- Witness for C9: success on the spec's two distinct bodies, failure on a
duplicated body. -/
theorem init_from_bodies_witness :
    (StaticSystem.init (.pybool true) ([pmA, pmB].map PyVal.pm)
        = .ok ⟨2, StaticSystem.fromBodiesSys [pmA, pmB]⟩) ∧
      (∃ n, StaticSystem.init (.pybool true) ([pmA, pmA].map PyVal.pm)
        = .error (.duplicateName n)) :=
  ⟨(init_from_bodies [pmA, pmB]).2 (by simp) (by simp [pmA, pmB]),
    (init_from_bodies [pmA, pmA]).1 (by simp [pmA])⟩
